import Mathlib

/-!
# AutoBot — Mercari deal hunter: shallow embedding and verification

This file embeds the discovery pipeline of the AutoBot scanner (Go) in
Lean 4 and proves properties of it: the SQLite-backed dedup store
(`pkg/store/dedup.go`), the CLIP classification gate (`pkg/mercari`,
`AIFilter.FilterItems` / `classifyItem`), the retrying search
orchestration (`searchWithRetry`), the per-keyword scan pipeline
(`scanBrand` / `runScanCycle`), and the tolerant numeric parser
(`jsonNumberToInt`).

Modelling conventions:
* time is rational seconds / minutes; scores are rationals standing for
  the Go `float64` confidence values (all scores involved are exactly
  representable decimals, so comparisons against the `0.3` threshold
  agree with the Go runtime);
* network effects are oracles: a classification call consumes the next
  element of a list of `ClipCallResult` outcomes, a search attempt `k`
  reads `call k`, a notification send reads `sendOk item`;
* the SQLite `seen_items` table is a `List SeenRecord` with `id` as
  primary key; `INSERT OR IGNORE` and `SELECT COUNT(*)` are modelled
  directly.
-/

namespace AutoBot

/-- `mercari.Item` (pkg/mercari models): a single product listing.
`Created` is seconds since epoch, as a rational. -/
structure Item where
  ID : String
  Name : String
  Price : Int
  Status : String
  ImageURLs : List String
  Created : ℚ
  BrandName : String
  ItemURL : String
deriving Repr, DecidableEq

/-- `Item.AgeMinutes`: minutes elapsed from `Created` to `now`
(`time.Since(item.Created).Minutes()`). -/
def ageMinutes (now : ℚ) (item : Item) : ℚ :=
  (now - item.Created) / 60

/-! ## Dedup store (`pkg/store/dedup.go`)

A row of the `seen_items` table: `(id TEXT PRIMARY KEY, brand, name,
price, seen_at)`. -/

structure SeenRecord where
  id : String
  brand : String
  name : String
  price : Int
  seenAt : ℚ
deriving Repr, DecidableEq

/-- Whether the table already holds a row with the given primary key. -/
def hasId (tbl : List SeenRecord) (id : String) : Bool :=
  tbl.any (fun r => r.id = id)

/-- SQLite `INSERT` into `seen_items`: with `orIgnore = true`
(`INSERT OR IGNORE`) a duplicate primary key is a silent no-op; with
`orIgnore = false` it is a constraint error. -/
def sqliteInsert (orIgnore : Bool) (tbl : List SeenRecord) (r : SeenRecord) :
    Except String (List SeenRecord) :=
  if hasId tbl r.id then
    if orIgnore then .ok tbl
    else .error "UNIQUE constraint failed: seen_items.id"
  else .ok (tbl ++ [r])

/-- `DedupStore.MarkSeen`: `INSERT OR IGNORE INTO seen_items ...` with
`seen_at = time.Now().UTC()`. -/
def MarkSeen (tbl : List SeenRecord) (itemID brand name : String)
    (price : Int) (now : ℚ) : Except String (List SeenRecord) :=
  sqliteInsert true tbl ⟨itemID, brand, name, price, now⟩

/-- `SELECT COUNT(*) FROM seen_items WHERE id = ?` against a database
that may be unavailable (`none` = query error). -/
def sqliteCountWhere (db : Option (List SeenRecord)) (id : String) : Option Nat :=
  db.map (fun tbl => tbl.countP (fun r => r.id = id))

/-- `DedupStore.HasSeen`: on a query error it logs and returns `false`;
otherwise it reports whether the count is positive. -/
def HasSeen (db : Option (List SeenRecord)) (itemID : String) : Bool :=
  match sqliteCountWhere db itemID with
  | none => false
  | some count => count > 0

/-- `DedupStore.Count`: `SELECT COUNT(*) FROM seen_items` (0 on error). -/
def Count (db : Option (List SeenRecord)) : Nat :=
  match db with
  | none => 0
  | some tbl => tbl.length

/-! ## Classification gate (`pkg/mercari`, AIFilter) -/

/-- `mercari.AIFilter`. -/
structure AIFilter where
  apiKey : String
  model : String
  enabled : Bool
  keepLabels : List String
  trashLabels : List String
deriving Repr, DecidableEq

/-- `mercari.NewAIFilter`: filtering is enabled only when the flag is on
and a real API key is configured; the label vocabulary is fixed. -/
def NewAIFilter (apiKey model : String) (enabled : Bool) : AIFilter :=
  { apiKey := apiKey
    model := model
    enabled := enabled && apiKey ≠ "" && apiKey ≠ "YOUR_HF_API_KEY"
    keepLabels :=
      ["a hat or cap", "a beanie", "a jacket or coat", "a leather jacket",
       "a sweater or knitwear", "a shirt or top", "pants or trousers",
       "shorts", "a designer handbag", "a leather bag", "a luxury wallet",
       "designer shoes", "leather shoes or boots", "sunglasses", "a watch",
       "jewelry", "fashion accessories"]
    trashLabels :=
      ["an empty box", "a cardboard box", "a shopping bag", "a paper bag",
       "a receipt", "a blurry photo", "a logo tag only", "a dust bag only"] }

/-- Body of one HuggingFace response, as far as JSON decoding is
concerned: it may decode as a single `{labels, scores}` object, as an
array of such objects, or as neither. -/
inductive ClipBody where
  | objectEnc (labels : List String) (scores : List ℚ)
  | arrayEnc (elems : List (List String × List ℚ))
  | malformed
deriving Repr, DecidableEq

/-- Outcome of one HTTP classification call: the `client.Do` transport
error, the `io.ReadAll` error, or a status code with a body. -/
inductive ClipCallResult where
  | transportError
  | readError
  | status (code : Nat) (body : ClipBody)
deriving Repr, DecidableEq

/-- The two-stage response parse in `classifyItem`: try a single object;
failing that, try an array and take its first element (an empty array is
a parse failure). -/
def parseClipBody : ClipBody → Option (List String × List ℚ)
  | .objectEnc labels scores => some (labels, scores)
  | .arrayEnc [] => none
  | .arrayEnc (e :: _) => some e
  | .malformed => none

/-- The (keep, topLabel, topScore) triple returned by `classifyItem`. -/
structure ClassDecision where
  keep : Bool
  label : String
  score : ℚ
deriving Repr, DecidableEq

/-- `AIFilter.classifyItem`: classify the first image of the item, consuming
one oracle outcome per HTTP call; returns the decision together with the
number of HTTP calls made. A 503 status ("model loading") sleeps 20s and
recurses on the remaining outcomes — the Go code has no retry counter.
An item without images is kept without any call. An exhausted oracle
(`[]`) is outside the modelled trace and is treated as a transport
error. -/
def classifyItem (f : AIFilter) (item : Item) :
    List ClipCallResult → ClassDecision × Nat
  | [] =>
    if item.ImageURLs = [] then (⟨true, "no_image", 0⟩, 0)
    else (⟨true, "error", 0⟩, 0)
  | o :: rest =>
    if item.ImageURLs = [] then (⟨true, "no_image", 0⟩, 0)
    else
      match o with
      | .transportError => (⟨true, "error", 0⟩, 1)
      | .readError => (⟨true, "error", 0⟩, 1)
      | .status code body =>
        if code ≠ 200 then
          if code = 503 then
            let r := classifyItem f item rest
            (r.1, r.2 + 1)
          else (⟨true, "api_error", 0⟩, 1)
        else
          match parseClipBody body with
          | none => (⟨true, "parse_error", 0⟩, 1)
          | some (labels, scores) =>
            match labels, scores with
            | [], _ => (⟨true, "empty_result", 0⟩, 1)
            | _ :: _, [] => (⟨true, "empty_result", 0⟩, 1)
            | topLabel :: _, topScore :: _ =>
              if topLabel ∈ f.trashLabels ∧ topScore > 3/10 then
                (⟨false, topLabel, topScore⟩, 1)
              else (⟨true, topLabel, topScore⟩, 1)

/-- One slot of the `results` array in `FilterItems`, written by the
worker handling input index `index`. -/
structure FilterSlot where
  index : Nat
  keep : Bool
  label : String
  score : ℚ
deriving Repr, DecidableEq

/-- The slot the worker (or the zero-image shortcut) stores at index
`i`: items without images are kept inline, without dispatching a
classification call. -/
def resultFor (f : AIFilter) (outcomes : Nat → List ClipCallResult)
    (i : Nat) (it : Item) : FilterSlot :=
  if it.ImageURLs = [] then ⟨i, true, "no_image", 0⟩
  else
    let d := (classifyItem f it (outcomes i)).1
    ⟨i, d.keep, d.label, d.score⟩

/-- `AIFilter.FilterItems`: disabled ⇒ passthrough; otherwise each item
gets a result slot at its own input index (computed by a bounded worker
pool, joined before collection), and the kept items are collected by
walking the slots in index order, appending `items[i]` whenever slot `i`
says keep. -/
def FilterItems (f : AIFilter) (outcomes : Nat → List ClipCallResult)
    (items : List Item) : List Item :=
  if f.enabled = false then items
  else
    let results := items.mapIdx (fun i it => resultFor f outcomes i it)
    ((results.zip items).filter (fun p => p.1.keep)).map (fun p => p.2)

/-! ## Retrying search (`searchWithRetry` in the main package) -/

/-- Outcome of one `scanner.SearchWithFallback` call. -/
inductive SearchOutcome where
  | ok (items : List Item)
  | err (msg : String)
deriving Repr, DecidableEq

/-- What one run of `searchWithRetry` did: its returned value, how many
attempts it made, and the sleeps (in seconds) performed before retry
attempts, in order. -/
structure RetryTrace where
  result : Except String (List Item)
  attempts : Nat
  waits : List ℚ
deriving Repr

/-- The terminal error of `searchWithRetry`:
`fmt.Errorf("all %d retries failed: %w", maxRetries, lastErr)`. -/
def terminalMsg (maxRetries : Nat) (lastErr : String) : String :=
  "all " ++ toString maxRetries ++ " retries failed: " ++ lastErr

/-- The sleep before retry attempt `attempt ≥ 1`:
`2^(attempt-1)` seconds plus `rand.Intn(1000)` milliseconds of jitter
(`rng` is the random oracle; `% 1000` is the range of `Intn`). -/
def backoffWait (rng : Nat → Nat) (attempt : Nat) : ℚ :=
  (2 : ℚ) ^ (attempt - 1) + ((rng attempt % 1000 : Nat) : ℚ) / 1000

/-- The `for attempt := 0; attempt <= maxRetries` loop of
`searchWithRetry`, with `fuel` attempts remaining. Attempt 0 sleeps
nothing; every later attempt sleeps `backoffWait` first. A `nil` error
returns immediately; otherwise the error is recorded and the next
attempt runs. -/
def retryGo (call : Nat → SearchOutcome) (rng : Nat → Nat) (maxRetries : Nat) :
    Nat → Nat → String → RetryTrace
  | 0, _, lastErr => ⟨.error (terminalMsg maxRetries lastErr), 0, []⟩
  | fuel + 1, attempt, _lastErr =>
    let ws : List ℚ := if attempt = 0 then [] else [backoffWait rng attempt]
    match call attempt with
    | .ok items => ⟨.ok items, 1, ws⟩
    | .err e =>
      let t := retryGo call rng maxRetries fuel (attempt + 1) e
      ⟨t.result, t.attempts + 1, ws ++ t.waits⟩

/-- `Bot.searchWithRetry`: run the attempt loop from attempt 0 with
`maxRetries + 1` attempts available. -/
def searchWithRetry (call : Nat → SearchOutcome) (rng : Nat → Nat)
    (maxRetries : Nat) : RetryTrace :=
  retryGo call rng maxRetries (maxRetries + 1) 0 ""

/-! ## Scan cycle (`scanBrand` / `runScanCycle` in the main package) -/

/-- The notification loop at the end of `scanBrand`, over the kept
items: a failed `SendDeal` hits `continue`, which skips both `MarkSeen`
and the `sent++`; a successful send is followed by
`MarkSeen(id, brand, name, price)` and `sent++`. Returns the updated
table and the number sent. (the `MarkSeen` error is discarded with `_ =`;
on a healthy table `INSERT OR IGNORE` never errors.) -/
def notifyLoop (sendOk : Item → Bool) (brand : String) (now : ℚ) :
    List SeenRecord → List Item → List SeenRecord × Nat
  | tbl, [] => (tbl, 0)
  | tbl, item :: rest =>
    if sendOk item then
      let tbl' := match MarkSeen tbl item.ID brand item.Name item.Price now with
        | .ok t => t
        | .error _ => tbl
      let r := notifyLoop sendOk brand now tbl' rest
      (r.1, r.2 + 1)
    else
      notifyLoop sendOk brand now tbl rest

/-- The five per-cycle stage counters. `found`, `unseen` (reported as
"new") and `sent` are accumulated by the Go code; `fresh` and `kept`
are the logged intermediate stage sizes. -/
structure CycleStats where
  found : Nat
  fresh : Nat
  unseen : Nat
  kept : Nat
  sent : Nat
deriving Repr, DecidableEq

/-- Pointwise sum of stage counters (accumulation across keywords). -/
def addStats (a b : CycleStats) : CycleStats :=
  ⟨a.found + b.found, a.fresh + b.fresh, a.unseen + b.unseen,
   a.kept + b.kept, a.sent + b.sent⟩

/-- One keyword of `scanBrand` configuration and oracles:
the brand name, the (retried) search result for the keyword, and the
classification-call oracle used for its items. -/
structure KeywordRun where
  brand : String
  fetch : SearchOutcome
  outcomes : Nat → List ClipCallResult

/-- The body of the `scanBrand` keyword loop for one keyword: on search
error, `continue` (all counters 0); otherwise age-filter, dedup-filter
via `HasSeen`, cap at `maxDeals` (`unseen[:MaxDealsPerBrand]`), run the
AI filter, then notify-and-mark. Returns the counters and the updated
seen table. -/
def scanKeyword (maxAgeMinutes : ℚ) (maxDeals : Nat) (f : AIFilter)
    (sendOk : Item → Bool) (now : ℚ) (tbl : List SeenRecord)
    (kw : KeywordRun) : CycleStats × List SeenRecord :=
  match kw.fetch with
  | .err _ => (⟨0, 0, 0, 0, 0⟩, tbl)
  | .ok items =>
    let fresh := items.filter (fun it => ageMinutes now it ≤ maxAgeMinutes)
    let unseen := fresh.filter (fun it => !HasSeen (some tbl) it.ID)
    let capped := unseen.take maxDeals
    let kept := FilterItems f kw.outcomes capped
    let r := notifyLoop sendOk kw.brand now tbl kept
    (⟨items.length, fresh.length, unseen.length, kept.length, r.2⟩, r.1)

/-- `runScanCycle`, flattened over the keywords of all brands in order: fold
`scanKeyword` across the cycle, threading the seen table and summing the
counters. -/
def runScanCycle (maxAgeMinutes : ℚ) (maxDeals : Nat) (f : AIFilter)
    (sendOk : Item → Bool) (now : ℚ) :
    List SeenRecord → List KeywordRun → CycleStats × List SeenRecord
  | tbl, [] => (⟨0, 0, 0, 0, 0⟩, tbl)
  | tbl, kw :: rest =>
    let r := scanKeyword maxAgeMinutes maxDeals f sendOk now tbl kw
    let s := runScanCycle maxAgeMinutes maxDeals f sendOk now r.2 rest
    (addStats r.1 s.1, s.2)

/-! ## Tolerant numeric parsing (`jsonNumberToInt`, pkg/mercari/scanner.go)

A `json.Number` is the raw token string. `Int64()` is
`strconv.ParseInt(s, 10, 64)`, `Float64()` is
`strconv.ParseFloat(s, 64)` (modelled on the decimal grammar the
responses use), and the last resort is `strconv.Atoi` with its error
discarded (so a range error keeps the clamped value). -/

/-- Decimal value of a digit run (callers check the digits first). -/
def natOfDigits (cs : List Char) : Nat :=
  cs.foldl (fun acc c => acc * 10 + (c.toNat - 48)) 0

/-- Parse a non-empty run of decimal digits. -/
def digitsToNat : List Char → Option Nat
  | [] => none
  | cs =>
    if cs.all (fun c => c.isDigit) then some (natOfDigits cs)
    else none

/-- Split an optional leading sign, returning (negative?, rest). -/
def splitSign : List Char → Bool × List Char
  | '-' :: cs => (true, cs)
  | '+' :: cs => (false, cs)
  | cs => (false, cs)

/-- Syntax-level signed decimal integer parse (shared by `ParseInt` and
`Atoi`): optional sign then one or more digits, exact value. -/
def parseIntSyntax (s : String) : Option Int :=
  let (neg, cs) := splitSign s.data
  match digitsToNat cs with
  | none => none
  | some n => some (if neg then -(n : Int) else (n : Int))

def int64Min : Int := -(2 ^ 63)
def int64Max : Int := 2 ^ 63 - 1

/-- `strconv.ParseInt(s, 10, 64)` as used by `json.Number.Int64`:
syntax error or 64-bit range overflow both yield an error. -/
def goParseInt64 (s : String) : Option Int :=
  match parseIntSyntax s with
  | none => none
  | some v => if v < int64Min ∨ int64Max < v then none else some v

/-- `strconv.Atoi(s)` with the error discarded (`i, _ :=`): a syntax
error leaves the zero value; a range error leaves the clamped extreme. -/
def goAtoi (s : String) : Int :=
  match parseIntSyntax s with
  | none => 0
  | some v => if v < int64Min then int64Min else if int64Max < v then int64Max else v

/-- The decimal part of the `strconv.ParseFloat` grammar, covering the
numeric tokens the marketplace API emits: optional sign, digits with at
most one dot (at least one digit overall), optional integer exponent.
Value is exact, as a rational. -/
def parseFloatMantissa : List Char → Option ℚ
  | cs =>
    match cs.splitOn '.' with
    | [intPart] =>
      match digitsToNat intPart with
      | none => none
      | some n => some (n : ℚ)
    | [intPart, fracPart] =>
      if (intPart ≠ [] ∨ fracPart ≠ []) ∧
          intPart.all (fun c => c.isDigit) ∧ fracPart.all (fun c => c.isDigit) then
        some ((natOfDigits intPart : ℚ) +
          (natOfDigits fracPart : ℚ) / (10 : ℚ) ^ fracPart.length)
      else none
    | _ => none

/-- `strconv.ParseFloat(s, 64)` on the decimal grammar. -/
def goParseFloat (s : String) : Option ℚ :=
  let (neg, cs) := splitSign s.data
  match cs.splitOn 'e' with
  | [mant] =>
    (parseFloatMantissa mant).map (fun q => if neg then -q else q)
  | [mant, expPart] =>
    match parseFloatMantissa mant with
    | none => none
    | some q =>
      let (eneg, ecs) := splitSign expPart
      match digitsToNat ecs with
      | none => none
      | some e =>
        let scaled := if eneg then q / (10 : ℚ) ^ e else q * (10 : ℚ) ^ e
        some (if neg then -scaled else scaled)
  | _ => none

/-- The Go `int(f)` conversion for an in-range float: truncation toward
zero. -/
def truncToInt (q : ℚ) : Int :=
  if 0 ≤ q then ⌊q⌋ else ⌈q⌉

/-- `jsonNumberToInt`: empty ⇒ 0; try `Int64()`; on failure try
`Float64()` and truncate; on failure fall back to `Atoi` with its error
ignored (defaulting to 0). Total — a field whose encoding is unexpected
normalizes to some integer instead of failing the response. -/
def jsonNumberToInt (n : String) : Int :=
  if n = "" then 0
  else
    match goParseInt64 n with
    | some v => v
    | none =>
      match goParseFloat n with
      | some f => truncToInt f
      | none => goAtoi n

/-! ## Concrete fixtures used by closed statements and witnesses -/

/-- A concrete listing with one image, used as a test fixture. -/
def sampleItem : Item :=
  ⟨"m100", "Vintage Cap", 5000, "on_sale", ["https://img/1.jpg"], 0, "BrandX",
   "https://jp.mercari.com/item/m100"⟩

/-- A concrete enabled filter, built exactly as `NewAIFilter` builds it. -/
def sampleFilter : AIFilter := NewAIFilter "hf_key" "openai/clip-vit-large-patch14" true

/-- The error outcomes enumerated by the fail-open requirement: a
transport error, a read error, a non-success status other than 503, or
a 200 whose body fails to parse (including an empty array) or parses to
empty labels/scores. -/
def isErrorOutcome : ClipCallResult → Bool
  | .transportError => true
  | .readError => true
  | .status code body =>
    if code = 200 then
      match parseClipBody body with
      | none => true
      | some (labels, scores) => labels.isEmpty || scores.isEmpty
    else decide (code ≠ 503)

end AutoBot

namespace AutoBot

/-! ## Theorems -/

/-- **C9.** The tolerant numeric parser normalizes the string token
`15000`, the native number `15000` (which arrives as the same token),
and the string `15000.0` all to the integer 15000: the integer parse
handles the first two, the decimal falls through `Int64()` to the float
parse and is truncated. When every strategy fails the field defaults to
zero (and the empty token defaults to zero), so an unexpected encoding
of one field never fails the whole response — `jsonNumberToInt` is
total. -/
theorem jsonNumberToInt_tolerant_c9 :
    jsonNumberToInt "15000" = 15000 ∧
    jsonNumberToInt "15000.0" = 15000 ∧
    jsonNumberToInt "" = 0 ∧
    jsonNumberToInt "abc" = 0 ∧
    goParseInt64 "15000.0" = none ∧
    goParseFloat "15000.0" = some 15000 := by
  have hn : natOfDigits ['1', '5', '0', '0', '0'] = 15000 := by decide
  have hz : natOfDigits ['0'] = 0 := by decide
  have hfloat : goParseFloat "15000.0" =
      some ((natOfDigits ['1', '5', '0', '0', '0'] : ℚ) +
        (natOfDigits ['0'] : ℚ) / (10 : ℚ) ^ (1 : Nat)) := rfl
  have htrunc : jsonNumberToInt "15000.0" =
      truncToInt ((natOfDigits ['1', '5', '0', '0', '0'] : ℚ) +
        (natOfDigits ['0'] : ℚ) / (10 : ℚ) ^ (1 : Nat)) := rfl
  refine ⟨by decide, ?_, by decide, by decide, by decide, ?_⟩
  · rw [htrunc, hn, hz]
    norm_num [truncToInt]
  · rw [hfloat, hn, hz]
    norm_num

/-- **C1.** The claim says a `SeenRecord` is created for every listing
that reaches the notification step, success or failure. The code
disagrees: on a `SendDeal` error the loop hits `continue` before
`MarkSeen`, so a surviving listing whose send fails leaves no record —
evaluated here on a one-listing batch whose send fails: the table stays
empty, nothing is sent, and `HasSeen` still reports the listing unseen
afterwards (it will be re-alerted next cycle). This contradicts the
comment in the source (`Mark as seen (even if send fails, to avoid
spam)`). -/
theorem notifyLoop_send_failure_skips_markSeen_c1 :
    notifyLoop (fun _ => false) "BrandX" 0 [] [sampleItem] = ([], 0) ∧
    HasSeen (some (notifyLoop (fun _ => false) "BrandX" 0 [] [sampleItem]).1)
      sampleItem.ID = false := by
  exact ⟨rfl, rfl⟩

/-- **C3.** The claim says at most two classification calls are ever
made and that a second model-loading failure fails open. The code
retries on every 503 with no attempt counter: with the response
sequence 503, 503, then a successful classification whose top label is
a reject label at score 0.9, `classifyItem` makes **three** HTTP calls
and returns a rejection — it neither stopped at two calls nor failed
open after the second loading failure. -/
theorem classifyItem_unbounded_503_retry_c3 :
    classifyItem sampleFilter sampleItem
      [.status 503 .malformed, .status 503 .malformed,
       .status 200 (.objectEnc ["an empty box"] [9/10])] =
      (⟨false, "an empty box", 9/10⟩, 3) := by
  norm_num [classifyItem, sampleFilter, sampleItem, NewAIFilter, parseClipBody]

/-- **C4 counterexample.** The claim says the result of `HasSeen` lets
the caller distinguish a failed lookup from an absent id. It cannot:
`HasSeen` returns a bare boolean, and a storage read error produces the
same `false` as a healthy, empty table. -/
theorem hasSeen_error_indistinguishable_c4 :
    HasSeen none sampleItem.ID = false ∧
    HasSeen (some []) sampleItem.ID = false := by
  exact ⟨rfl, rfl⟩

/-- **C4 amended.** A storage read error never crashes or propagates to
the caller: `HasSeen` logs and returns `false`, i.e. the store itself
applies the conservative treat-as-unseen default instead of reporting
the failure distinctly; on a healthy store `HasSeen` is true exactly
when a record with the id exists. -/
theorem hasSeen_fail_soft_c4 (id : String) (tbl : List SeenRecord) :
    HasSeen none id = false ∧
    (HasSeen (some tbl) id = true ↔ ∃ r ∈ tbl, r.id = id) := by
  constructor
  · rfl
  · simp only [HasSeen, sqliteCountWhere, Option.map_some']
    rw [show ((tbl.countP (fun r => r.id = id) > 0 : Bool) = true) ↔
        0 < tbl.countP (fun r => r.id = id) from by simp]
    rw [List.countP_pos_iff]
    simp

/-- **C5.** `MarkSeen` is an idempotent insert-if-absent: for an id not
yet recorded, the first call appends exactly one record and the second
call (with any brand/name/price/time) is an error-free no-op — the
`INSERT OR IGNORE` leaves the table unchanged — so exactly one record
with that id exists and `count()` (the table length) grows by exactly
one relative to before the first call. -/
theorem markSeen_idempotent_c5 (tbl : List SeenRecord)
    (id b1 n1 b2 n2 : String) (p1 p2 : Int) (t1 t2 : ℚ)
    (h : ∀ r ∈ tbl, r.id ≠ id) :
    ∃ u, MarkSeen tbl id b1 n1 p1 t1 = .ok u ∧
      MarkSeen u id b2 n2 p2 t2 = .ok u ∧
      u.countP (fun r => r.id = id) = 1 ∧
      u.length = tbl.length + 1 := by
  have hnot : hasId tbl id = false := by
    simp only [hasId, List.any_eq_false, decide_eq_true_eq]
    exact h
  refine ⟨tbl ++ [⟨id, b1, n1, p1, t1⟩], ?_, ?_, ?_, ?_⟩
  · simp [MarkSeen, sqliteInsert, hnot]
  · have hyes : hasId (tbl ++ [⟨id, b1, n1, p1, t1⟩]) id = true := by
      simp [hasId]
    simp [MarkSeen, sqliteInsert, hyes]
  · rw [List.countP_append]
    have hz : tbl.countP (fun r => decide (r.id = id)) = 0 := by
      rw [List.countP_eq_zero]
      intro r hr
      simpa using h r hr
    simp [hz]
  · simp

/-- Witness for C5 at a concrete empty store. -/
theorem markSeen_idempotent_c5_witness :
    ∃ u, MarkSeen [] "m100" "BrandX" "Vintage Cap" 5000 0 = .ok u ∧
      MarkSeen u "m100" "BrandY" "Other" 1 7 = .ok u ∧
      u.countP (fun r => r.id = "m100") = 1 ∧
      u.length = ([] : List SeenRecord).length + 1 :=
  markSeen_idempotent_c5 [] "m100" "BrandX" "Vintage Cap" "BrandY" "Other"
    5000 1 0 7 (by simp)

/-- **C6.** The decision predicate of the classification gate: on a
successful classification of a listing with at least one image, the
listing is rejected (keep = false) iff the top-ranked label is a trash
label and its score strictly exceeds 3/10 — so score exactly 3/10 or a
non-trash top label keeps it regardless of score. A listing with zero
images is kept unconditionally with the `no_image` label, making zero
classification calls, both inside `classifyItem` and in the worker
dispatch of `FilterItems` (`resultFor`), which never dispatches a call
for it. -/
theorem classify_decision_c6 (f : AIFilter) (item : Item) (l : String)
    (ls : List String) (s : ℚ) (ss : List ℚ) (rest : List ClipCallResult) :
    (item.ImageURLs ≠ [] →
      ((classifyItem f item
          (.status 200 (.objectEnc (l :: ls) (s :: ss)) :: rest)).1.keep = false ↔
        l ∈ f.trashLabels ∧ s > 3/10)) ∧
    (item.ImageURLs = [] →
      (∀ outs, classifyItem f item outs = (⟨true, "no_image", 0⟩, 0)) ∧
      (∀ o i, resultFor f o i item = ⟨i, true, "no_image", 0⟩)) := by
  constructor
  · intro himg
    by_cases hc : l ∈ f.trashLabels ∧ s > 3/10
    · simp [classifyItem, himg, parseClipBody, hc]
    · simp [classifyItem, himg, parseClipBody, hc]
  · intro himg
    refine ⟨fun outs => ?_, fun o i => ?_⟩
    · cases outs <;> simp [classifyItem, himg]
    · simp [resultFor, himg]

/-- Witness for C6: the sample listing with a trash top label at score
31/100 is rejected; at score exactly 3/10 it is kept. -/
theorem classify_decision_c6_witness :
    ((classifyItem sampleFilter sampleItem
        (.status 200 (.objectEnc (["an empty box"] ++ [])
          ((31/100 : ℚ) :: [])) :: [])).1.keep = false ↔
      "an empty box" ∈ sampleFilter.trashLabels ∧ (31/100 : ℚ) > 3/10) :=
  (classify_decision_c6 sampleFilter sampleItem "an empty box" [] (31/100) [] []).1
    (by decide)

/-- **C2.** The classification gate fails open: for a listing with at
least one image, every error outcome — transport error, response-read
error, non-success status other than the 503 loading signal, a parse
failure (where a single object and a single-element array are both
accepted encodings and an empty array is a failure), or an empty
labels/scores result — keeps the listing (keep = true) with one of the
diagnostic labels, and the listing is present in the `FilterItems`
output. -/
theorem classify_fail_open_c2 (f : AIFilter) (item : Item)
    (o : ClipCallResult) (rest : List ClipCallResult)
    (himg : item.ImageURLs ≠ []) (herr : isErrorOutcome o = true) :
    (classifyItem f item (o :: rest)).1.keep = true ∧
    (classifyItem f item (o :: rest)).1.label ∈
      (["error", "api_error", "parse_error", "empty_result"] : List String) ∧
    item ∈ FilterItems f (fun _ => o :: rest) [item] ∧
    (∀ (ls : List String) (ss : List ℚ),
      parseClipBody (.objectEnc ls ss) = some (ls, ss) ∧
      parseClipBody (.arrayEnc [(ls, ss)]) = some (ls, ss)) := by
  have hmain : (classifyItem f item (o :: rest)).1.keep = true ∧
      (classifyItem f item (o :: rest)).1.label ∈
        (["error", "api_error", "parse_error", "empty_result"] : List String) := by
    cases o with
    | transportError => simp [classifyItem, himg]
    | readError => simp [classifyItem, himg]
    | status code body =>
      by_cases h200 : code = 200
      · subst h200
        cases hp : parseClipBody body with
        | none => simp [classifyItem, himg, hp]
        | some p =>
          obtain ⟨ls, ss⟩ := p
          have hempty : ls.isEmpty || ss.isEmpty := by
            simpa [isErrorOutcome, hp] using herr
          cases ls with
          | nil => simp [classifyItem, himg, hp]
          | cons l ls' =>
            cases ss with
            | nil => simp [classifyItem, himg, hp]
            | cons s ss' => simp at hempty
      · have h503 : code ≠ 503 := by
          simpa [isErrorOutcome, h200] using herr
        simp [classifyItem, himg, h200, h503]
  refine ⟨hmain.1, hmain.2, ?_, fun ls ss => ⟨rfl, rfl⟩⟩
  by_cases hen : f.enabled = false
  · simp [FilterItems, hen]
  · simp [FilterItems, hen, resultFor, himg, hmain.1]

/-- Witness for C2: a transport error on the sample listing. -/
theorem classify_fail_open_c2_witness :
    (classifyItem sampleFilter sampleItem [.transportError]).1.keep = true ∧
    (classifyItem sampleFilter sampleItem [.transportError]).1.label ∈
      (["error", "api_error", "parse_error", "empty_result"] : List String) ∧
    sampleItem ∈ FilterItems sampleFilter (fun _ => [.transportError]) [sampleItem] ∧
    (∀ (ls : List String) (ss : List ℚ),
      parseClipBody (.objectEnc ls ss) = some (ls, ss) ∧
      parseClipBody (.arrayEnc [(ls, ss)]) = some (ls, ss)) :=
  classify_fail_open_c2 sampleFilter sampleItem .transportError []
    (by decide) (by decide)

/-- **C7.** `searchWithRetry` runs attempt 0 with no preceding sleep;
before each retry attempt `k ∈ 1..maxRetries` it sleeps
`2^(k-1)` seconds plus a jitter of `rand.Intn(1000)` milliseconds,
which is nonnegative and strictly under one second. With
`maxRetries = 3` and a client that fails every attempt it makes
exactly 4 attempts (the three sleeps are the whole wait list) and
returns the terminal error wrapping the last underlying error. -/
theorem searchWithRetry_c7 (call : Nat → SearchOutcome) (rng : Nat → Nat)
    (e : Nat → String) (h : ∀ k, call k = .err (e k)) :
    (searchWithRetry call rng 3).attempts = 4 ∧
    (searchWithRetry call rng 3).result = .error (terminalMsg 3 (e 3)) ∧
    (searchWithRetry call rng 3).waits =
      [backoffWait rng 1, backoffWait rng 2, backoffWait rng 3] ∧
    (∀ k, backoffWait rng k =
        (2 : ℚ) ^ (k - 1) + ((rng k % 1000 : Nat) : ℚ) / 1000 ∧
      (0 : ℚ) ≤ ((rng k % 1000 : Nat) : ℚ) / 1000 ∧
      ((rng k % 1000 : Nat) : ℚ) / 1000 < 1) := by
  refine ⟨?_, ?_, ?_, fun k => ⟨rfl, by positivity, ?_⟩⟩
  · simp [searchWithRetry, retryGo, h 0, h 1, h 2, h 3]
  · simp [searchWithRetry, retryGo, h 0, h 1, h 2, h 3]
  · simp [searchWithRetry, retryGo, h 0, h 1, h 2, h 3]
  · rw [div_lt_one (by norm_num)]
    exact_mod_cast Nat.mod_lt _ (by norm_num)

/-- Witness for C7: a client that always fails with "boom" and a fixed
random oracle. -/
theorem searchWithRetry_c7_witness :
    (searchWithRetry (fun _ => .err "boom") (fun _ => 7) 3).attempts = 4 ∧
    (searchWithRetry (fun _ => .err "boom") (fun _ => 7) 3).result =
      .error (terminalMsg 3 ((fun _ => "boom") 3)) ∧
    (searchWithRetry (fun _ => .err "boom") (fun _ => 7) 3).waits =
      [backoffWait (fun _ => 7) 1, backoffWait (fun _ => 7) 2,
       backoffWait (fun _ => 7) 3] ∧
    (∀ k, backoffWait (fun _ => 7) k =
        (2 : ℚ) ^ (k - 1) + (((fun _ => 7) k % 1000 : Nat) : ℚ) / 1000 ∧
      (0 : ℚ) ≤ (((fun _ => 7) k % 1000 : Nat) : ℚ) / 1000 ∧
      (((fun _ => 7) k % 1000 : Nat) : ℚ) / 1000 < 1) :=
  searchWithRetry_c7 (fun _ => .err "boom") (fun _ => 7) (fun _ => "boom")
    (fun _ => rfl)

/-- The collection loop of `FilterItems` produces a subsequence of the
input: walking any slot list zipped with the items, keeping `items[i]`
when slot `i` says keep, yields a sublist of the items. -/
theorem zipFilterMap_sublist (rs : List FilterSlot) :
    ∀ its : List Item,
      (((rs.zip its).filter (fun p => p.1.keep)).map (fun p => p.2)).Sublist its := by
  induction rs with
  | nil => intro its; simp
  | cons r rs ih =>
    intro its
    cases its with
    | nil => simp
    | cons it its' =>
      rw [List.zip_cons_cons, List.filter_cons]
      by_cases hk : r.keep
      · simpa [hk] using (ih its').cons₂ it
      · simpa [hk] using (ih its').cons it

/-- `FilterItems` output is a sublist of its input (helper shared by the
pipeline lemmas). -/
theorem filterItems_sublist_aux (f : AIFilter)
    (outcomes : Nat → List ClipCallResult) (items : List Item) :
    (FilterItems f outcomes items).Sublist items := by
  unfold FilterItems
  by_cases hen : f.enabled = false
  · simp [hen]
  · simpa [hen] using
      zipFilterMap_sublist (items.mapIdx fun i it => resultFor f outcomes i it) items

/-- **C10.** `FilterItems` returns a subsequence of its input: every
kept listing is an occurrence of an input listing, each input occurrence
contributes at most once, and the relative input order is preserved —
the result slots are indexed by input position and collected in index
order after the join barrier, so the concurrent dispatch cannot
duplicate or reorder listings. -/
theorem filterItems_subsequence_c10 (f : AIFilter)
    (outcomes : Nat → List ClipCallResult) (items : List Item) :
    (FilterItems f outcomes items).Sublist items :=
  filterItems_sublist_aux f outcomes items

/-- The notification loop sends at most one alert per kept listing. -/
theorem notifyLoop_sent_le (sendOk : Item → Bool) (brand : String) (now : ℚ) :
    ∀ (kept : List Item) (tbl : List SeenRecord),
      (notifyLoop sendOk brand now tbl kept).2 ≤ kept.length := by
  intro kept
  induction kept with
  | nil => intro tbl; simp [notifyLoop]
  | cons it rest ih =>
    intro tbl
    by_cases hs : sendOk it
    · simp only [notifyLoop, hs, if_true, List.length_cons]
      exact Nat.succ_le_succ (ih _)
    · simp only [notifyLoop, hs, if_false, List.length_cons]
      exact Nat.le_succ_of_le (ih tbl)

/-- Per-keyword stage counters are a chain: each stage only removes
listings from the previous one. -/
theorem scanKeyword_chain (maxAge : ℚ) (maxDeals : Nat) (f : AIFilter)
    (sendOk : Item → Bool) (now : ℚ) (tbl : List SeenRecord)
    (kw : KeywordRun) :
    (scanKeyword maxAge maxDeals f sendOk now tbl kw).1.found ≥
      (scanKeyword maxAge maxDeals f sendOk now tbl kw).1.fresh ∧
    (scanKeyword maxAge maxDeals f sendOk now tbl kw).1.fresh ≥
      (scanKeyword maxAge maxDeals f sendOk now tbl kw).1.unseen ∧
    (scanKeyword maxAge maxDeals f sendOk now tbl kw).1.unseen ≥
      (scanKeyword maxAge maxDeals f sendOk now tbl kw).1.kept ∧
    (scanKeyword maxAge maxDeals f sendOk now tbl kw).1.kept ≥
      (scanKeyword maxAge maxDeals f sendOk now tbl kw).1.sent := by
  cases hfetch : kw.fetch with
  | err msg => simp [scanKeyword, hfetch]
  | ok items =>
    simp only [scanKeyword, hfetch]
    refine ⟨List.length_filter_le _ _, List.length_filter_le _ _, ?_, ?_⟩
    · calc (FilterItems f kw.outcomes
            (((items.filter _).filter _).take maxDeals)).length
          ≤ (((items.filter _).filter _).take maxDeals).length :=
            (filterItems_sublist_aux f kw.outcomes _).length_le
        _ ≤ ((items.filter _).filter _).length := by
            rw [List.length_take]; exact Nat.min_le_right _ _
    · exact notifyLoop_sent_le sendOk kw.brand now _ tbl

/-- **C8.** Cycle monotonicity: for any scan cycle (any keyword list,
any oracles, any starting table) the accumulated stage counters satisfy
`found ≥ fresh ≥ unseen ≥ kept ≥ sent` — each stage (age filter, dedup
filter, per-keyword cap, classification gate, notification) only
removes listings from the previous stage. -/
theorem cycle_monotonic_c8 (maxAge : ℚ) (maxDeals : Nat) (f : AIFilter)
    (sendOk : Item → Bool) (now : ℚ) (tbl : List SeenRecord)
    (kws : List KeywordRun) :
    (runScanCycle maxAge maxDeals f sendOk now tbl kws).1.found ≥
      (runScanCycle maxAge maxDeals f sendOk now tbl kws).1.fresh ∧
    (runScanCycle maxAge maxDeals f sendOk now tbl kws).1.fresh ≥
      (runScanCycle maxAge maxDeals f sendOk now tbl kws).1.unseen ∧
    (runScanCycle maxAge maxDeals f sendOk now tbl kws).1.unseen ≥
      (runScanCycle maxAge maxDeals f sendOk now tbl kws).1.kept ∧
    (runScanCycle maxAge maxDeals f sendOk now tbl kws).1.kept ≥
      (runScanCycle maxAge maxDeals f sendOk now tbl kws).1.sent := by
  induction kws generalizing tbl with
  | nil => simp [runScanCycle]
  | cons kw rest ih =>
    have hk := scanKeyword_chain maxAge maxDeals f sendOk now tbl kw
    have hr := ih (scanKeyword maxAge maxDeals f sendOk now tbl kw).2
    simp only [runScanCycle, addStats]
    exact ⟨Nat.add_le_add hk.1 hr.1, Nat.add_le_add hk.2.1 hr.2.1,
      Nat.add_le_add hk.2.2.1 hr.2.2.1, Nat.add_le_add hk.2.2.2 hr.2.2.2⟩

end AutoBot
